import Mathlib

/-!
Verification of the `home_secret_toml` repository's core logic against its
natural-language specification.

The development shallowly embeds the module `home_secret_toml.py`:

* TOML values (`Value` / `VList` / `Dict`) — the nested mapping produced by the
  external TOML parser: scalars (string, integer, boolean, float), lists, and
  nested string-keyed tables.  Python `dict`s (insertion-ordered, unique keys)
  are embedded as association lists looked up by first match.
* `_deep_get` — the dotted-path resolver (`deep_get` below, with its loop state
  made explicit in `deepGetAux`).
* `Token` — the lazy reference (dataclass wrapping a mapping and a path).
* `HomeSecretToml` — the store: its `data` cached property, `v` (immediate,
  cached lookup) and `t` (token creation, cached).  Python's implicit object
  state becomes explicit state passing over `StoreState`; exceptions become
  `Except HSError`.  File existence and the parsed content of the backing file
  are abstracted into `StoreConfig` (file reading and TOML parsing are external
  collaborators out of scope).  `readCount` and `resolveCount` are ghost
  counters recording how many times the backing file is read and how many times
  the resolver `deep_get` is invoked, so that memoization claims are
  observable.
* `walk` — the recursive leaf enumeration with its two filtering rules.
* The facet-matching helpers, which are exercised by the repository's tests but
  whose defining code is not present under `src/`, are modelled from the spec.
-/

/-! ## Data model: TOML values -/

mutual
/-- A TOML value as produced by the parser: a scalar (string, integer,
boolean, float), a list of values, or a nested table.  Floats are carried as
their literal text; no claim inspects float contents. -/
inductive Value where
  | vstr : String → Value
  | vint : Int → Value
  | vbool : Bool → Value
  | vfloat : String → Value
  | vlist : VList → Value
  | vdict : Dict → Value
/-- A list of TOML values. -/
inductive VList where
  | lnil : VList
  | lcons : Value → VList → VList
/-- A TOML table: a Python `dict` embedded as an insertion-ordered association
list with unique string keys. -/
inductive Dict where
  | dnil : Dict
  | dcons : String → Value → Dict → Dict
end

/-- Python `part in value and value[part]` on a dict: first-match lookup. -/
def Dict.lookup : Dict → String → Option Value
  | .dnil, _ => none
  | .dcons k v rest, key => if k = key then some v else rest.lookup key

/-- Python `isinstance(value, dict)`. -/
def Value.isDict : Value → Bool
  | .vdict _ => true
  | _ => false

/-- The placeholder sentinel `UNKNOWN = "..."` from the source. -/
def UNKNOWN : String := "..."

/-- The reserved metadata key `DESCRIPTION = "description"` from the source. -/
def DESCRIPTION : String := "description"

/-- Python `value == UNKNOWN`: only a string can compare equal to the string
sentinel (every other TOML value compares unequal to a `str` in Python). -/
def isUnknown : Value → Bool
  | .vstr s => s = UNKNOWN
  | _ => false

/-! ## String path helpers -/

/-- Accumulator loop for `splitDot`, scanning characters left to right. -/
def splitDotAux : List Char → List Char → List String
  | [], acc => [String.mk acc.reverse]
  | c :: cs, acc =>
    if c = '.' then String.mk acc.reverse :: splitDotAux cs []
    else splitDotAux cs (c :: acc)

/-- Python `path.split(".")`: splits on every dot, keeping empty segments
(`"".split(".") == [""]`, `".".split(".") == ["", ""]`). -/
def splitDot (s : String) : List String := splitDotAux s.toList []

/-- Python `".".join(parts)`. -/
def joinDot (parts : List String) : String := String.intercalate "." parts

/-- Path construction in `walk`:
`path = f"{_parent_path}.{key}" if _parent_path else key`. -/
def childPath (parentPath key : String) : String :=
  if parentPath = "" then key else parentPath ++ "." ++ key

/-! ## Errors -/

/-- The exceptions the module can raise: `KeyError` from `_deep_get` (carrying
the dotted prefix consumed up to and including the missing segment) and
`FileNotFoundError` from `HomeSecretToml.data`. -/
inductive HSError where
  | keyError : String → HSError
  | fileNotFound : HSError
deriving DecidableEq

/-- The `KeyError` message text
`f"Key {current_path!r} not found in the provided data."` (Python `repr` of a
quote-free path string is the string wrapped in single quotes). -/
def keyErrorMessage (currentPath : String) : String :=
  "Key '" ++ currentPath ++ "' not found in the provided data."

/-! ## `_deep_get`: the dotted-path resolver -/

/-- The loop of `_deep_get`, with the loop state explicit: `value` is the
current value, `consumed` the `parts` list accumulated so far, and `rest` the
segments still to process.  Each step appends the next segment to `consumed`;
if the current value is a dict containing that segment it descends, otherwise
it raises `KeyError` with the dot-join of `consumed` including the failing
segment. -/
def deepGetAux : Value → List String → List String → Except HSError Value
  | value, _, [] => Except.ok value
  | value, consumed, part :: rest =>
    match value with
    | .vdict d =>
      match d.lookup part with
      | some v => deepGetAux v (consumed ++ [part]) rest
      | none => Except.error (HSError.keyError (joinDot (consumed ++ [part])))
    | _ => Except.error (HSError.keyError (joinDot (consumed ++ [part])))

/-- `_deep_get(dct, path)`: start from the root dict and walk
`path.split(".")`. -/
def deep_get (dct : Dict) (path : String) : Except HSError Value :=
  deepGetAux (Value.vdict dct) [] (splitDot path)

/-! ## `Token`: the lazy reference -/

/-- The `Token` dataclass: a mapping handle and a path, stored unresolved.
Construction is total (never fails). -/
structure Token where
  data : Dict
  path : String

/-- The `Token.v` property: every read invokes `_deep_get` afresh on the
wrapped mapping and path; there is no internal caching. -/
def Token.v (t : Token) : Except HSError Value :=
  deep_get t.data t.path

/-! ## `HomeSecretToml`: the store -/

/-- The store's external environment: whether the backing file exists at the
configured path, and the mapping that reading and TOML-parsing the file would
yield.  File IO and parsing are the out-of-scope collaborators. -/
structure StoreConfig where
  fileExists : Bool
  content : Dict

/-- The mutable state of one `HomeSecretToml` instance: the `data`
cached-property memo, the `_cache_v` path→value cache, the `_cache_t`
path→token cache, plus two ghost counters: `readCount` counts file
read/parse operations and `resolveCount` counts invocations of `_deep_get`
made by `v`. -/
structure StoreState where
  dataCache : Option Dict
  cacheV : List (String × Value)
  cacheT : List (String × Token)
  readCount : Nat
  resolveCount : Nat

/-- A freshly constructed store: nothing loaded, both caches empty. -/
def initState : StoreState :=
  { dataCache := none, cacheV := [], cacheT := [], readCount := 0, resolveCount := 0 }

/-- Python `path in cache` / `cache[path]` on the store's cache dicts. -/
def lookupAssoc {α : Type} : List (String × α) → String → Option α
  | [], _ => none
  | (k, v) :: rest, key => if k = key then some v else lookupAssoc rest key

/-- The `data` cached property: on a cache hit return the memoized mapping;
otherwise check file existence first (raising `FileNotFoundError` before any
parse attempt), then read and parse the file (bumping `readCount`) and memoize
the result.  A failed access memoizes nothing (as with Python's
`cached_property` when the getter raises). -/
def loadData (cfg : StoreConfig) (st : StoreState) :
    StoreState × Except HSError Dict :=
  match st.dataCache with
  | some d => (st, Except.ok d)
  | none =>
    if cfg.fileExists then
      ({ st with dataCache := some cfg.content, readCount := st.readCount + 1 },
        Except.ok cfg.content)
    else (st, Except.error HSError.fileNotFound)

/-- `HomeSecretToml.v(path)`: if `path` is in `_cache_v` return the cached
value; otherwise load `data`, invoke `_deep_get` (bumping `resolveCount`), and
on success store the result in `_cache_v`.  Exceptions propagate; a failing
call caches no value. -/
def storeV (cfg : StoreConfig) (st : StoreState) (path : String) :
    StoreState × Except HSError Value :=
  match lookupAssoc st.cacheV path with
  | some v => (st, Except.ok v)
  | none =>
    match loadData cfg st with
    | (st1, Except.error e) => (st1, Except.error e)
    | (st1, Except.ok d) =>
      let st2 := { st1 with resolveCount := st1.resolveCount + 1 }
      match deep_get d path with
      | Except.error e => (st2, Except.error e)
      | Except.ok v => ({ st2 with cacheV := st2.cacheV ++ [(path, v)] }, Except.ok v)

/-- `HomeSecretToml.t(path)`: if `path` is in `_cache_t` return the cached
token; otherwise access `self.data` (which may raise `FileNotFoundError`),
construct `Token(data=self.data, path=path)` without resolving it, cache it
and return it. -/
def storeT (cfg : StoreConfig) (st : StoreState) (path : String) :
    StoreState × Except HSError Token :=
  match lookupAssoc st.cacheT path with
  | some tk => (st, Except.ok tk)
  | none =>
    match loadData cfg st with
    | (st1, Except.error e) => (st1, Except.error e)
    | (st1, Except.ok d) =>
      ({ st1 with cacheT := st1.cacheT ++ [(path, Token.mk d path)] },
        Except.ok (Token.mk d path))

/-- The store invariant holding of every state reachable through the store's
operations from `initState`: the memoized mapping, if present, is the parsed
file content (and the file existed when it was read); every `_cache_v` entry
records the genuine resolution of its path; every `_cache_t` entry is the
token bound to the store's mapping and its path. -/
def StoreWF (cfg : StoreConfig) (st : StoreState) : Prop :=
  (∀ d, st.dataCache = some d → d = cfg.content ∧ cfg.fileExists = true) ∧
  (∀ p v, lookupAssoc st.cacheV p = some v → deep_get cfg.content p = Except.ok v) ∧
  (∀ p tk, lookupAssoc st.cacheT p = some tk → tk = Token.mk cfg.content p)

/-! ## `walk`: leaf enumeration -/

mutual
/-- The body of `walk`'s loop for a single `(key, value)` item whose
accumulated dotted path is `path`: descend if the value is a dict; otherwise
skip `description` keys, skip sentinel values, and yield `(path, value)`
for everything else — in exactly the source's branch order
(`isinstance(value, dict)` is tested first). -/
def walkVal (key path : String) (v : Value) : List (String × Value) :=
  match v with
  | .vdict d => walkDict d path
  | _ =>
    if key = DESCRIPTION then []
    else if isUnknown v then []
    else [(path, v)]
/-- `walk(dct, _parent_path)`: iterate the dict's items in order,
concatenating what each item contributes. -/
def walkDict (d : Dict) (parentPath : String) : List (String × Value) :=
  match d with
  | .dnil => []
  | .dcons key value rest =>
    walkVal key (childPath parentPath key) value ++ walkDict rest parentPath
end

/-- `walk(dct)` with the default `_parent_path=""`. -/
def walk (dct : Dict) : List (String × Value) := walkDict dct ""

/-! ## Facet matching (modelled from the spec) -/

/-- Modelled from the spec: the facet-matching helper `_normalize_for_match`
is referenced by the repository's tests but its defining code is not present
under `src/`.  Per the spec's FacetMatcher contract it lowercases the string
and replaces every dash with an underscore. -/
def normalize_for_match (s : String) : String :=
  String.mk (s.toList.map (fun c => if c = '-' then '_' else c.toLower))

/-- Python `needle in hay` on strings: substring occurrence. -/
def substrB (hay needle : String) : Bool :=
  decide (List.IsInfix needle.toList hay.toList)

/-- Modelled from the spec: the facet-matching helper `_matches_all_facets`
is referenced by the repository's tests but its defining code is not present
under `src/`.  Per the spec's FacetMatcher contract it normalizes the path and
requires every facet to occur as a substring of the normalized path (logical
AND; an empty facet list matches vacuously). -/
def matches_all_facets (path : String) (facets : List String) : Bool :=
  facets.all (fun f => substrB (normalize_for_match path) f)

/-! ## Specification-side predicates for path resolution -/

/-- `Resolves v segs out`: starting from `v`, each segment in `segs` is a key
of the current value (which is therefore a dict at every step), and following
them ends at `out`. -/
inductive Resolves : Value → List String → Value → Prop where
  | nil (v : Value) : Resolves v [] v
  | cons {d : Dict} {k : String} {v' out : Value} {ks : List String} :
      d.lookup k = some v' → Resolves v' ks out → Resolves (.vdict d) (k :: ks) out

/-- `DivergesAt v segs n`: following `segs` from `v`, resolution first fails
at position `n` — either the value reached after `n` successful steps is not a
dict, or it is a dict that lacks segment `n` as a key. -/
inductive DivergesAt : Value → List String → Nat → Prop where
  | notDict {v : Value} {k : String} {ks : List String} :
      v.isDict = false → DivergesAt v (k :: ks) 0
  | missing {d : Dict} {k : String} {ks : List String} :
      Dict.lookup d k = none → DivergesAt (.vdict d) (k :: ks) 0
  | step {d : Dict} {k : String} {v' : Value} {ks : List String} {n : Nat} :
      Dict.lookup d k = some v' → DivergesAt v' ks n →
      DivergesAt (.vdict d) (k :: ks) (n + 1)

/-! ## Concrete fixtures -/

/-- A small mapping `{"a": {"b": 42}}` used by witnesses. -/
def exM : Dict := .dcons "a" (.vdict (.dcons "b" (.vint 42) .dnil)) .dnil

/-- The walk example from the spec:
`{"github": {"description": "x", "accounts": {"personal":
{"account_id": "user123", "admin_email": "..."}}}}`. -/
def exGithub : Dict :=
  .dcons "github" (.vdict (
    .dcons "description" (.vstr "x") (
    .dcons "accounts" (.vdict (
      .dcons "personal" (.vdict (
        .dcons "account_id" (.vstr "user123") (
        .dcons "admin_email" (.vstr "...") .dnil))) .dnil))
    .dnil))) .dnil

/-! ## Lemmas about `deepGetAux` -/

/-- If every segment resolves, the loop of `_deep_get` returns the denoted
value, whatever prefix has been consumed so far. -/
theorem deepGetAux_of_resolves {v out : Value} {segs : List String}
    (h : Resolves v segs out) :
    ∀ consumed, deepGetAux v consumed segs = Except.ok out := by
  induction h with
  | nil v => intro consumed; rfl
  | cons hlk hres ih =>
    intro consumed
    simp only [deepGetAux, hlk]
    exact ih (consumed ++ [_])

/-- If resolution first fails at position `n`, the loop of `_deep_get` raises
`KeyError` carrying the dot-join of the prefix consumed so far extended by
segments `0..n` inclusive. -/
theorem deepGetAux_of_diverges {v : Value} {segs : List String} {n : Nat}
    (h : DivergesAt v segs n) :
    ∀ consumed, deepGetAux v consumed segs =
      Except.error (HSError.keyError (joinDot (consumed ++ segs.take (n + 1)))) := by
  induction h with
  | notDict hnd =>
    intro consumed
    rename_i v k ks
    cases v <;> simp_all [deepGetAux, Value.isDict]
  | missing hlk =>
    intro consumed
    simp [deepGetAux, hlk]
  | step hlk hdiv ih =>
    intro consumed
    rename_i d k v' ks n
    have h2 := ih (consumed ++ [k])
    simp only [deepGetAux, hlk, h2, List.take_succ_cons, List.append_assoc,
      List.singleton_append]

/-- The loop of `_deep_get` always terminates with a value or a `KeyError`. -/
theorem deepGetAux_total (segs : List String) :
    ∀ (v : Value) (consumed : List String),
      (∃ out, deepGetAux v consumed segs = Except.ok out) ∨
      (∃ pre, deepGetAux v consumed segs = Except.error (HSError.keyError pre)) := by
  induction segs with
  | nil => intro v consumed; exact Or.inl ⟨v, rfl⟩
  | cons s rest ih =>
    intro v consumed
    cases v with
    | vdict d =>
      cases hlk : Dict.lookup d s with
      | some v' =>
        have h2 := ih v' (consumed ++ [s])
        simpa only [deepGetAux, hlk] using h2
      | none =>
        exact Or.inr ⟨joinDot (consumed ++ [s]), by simp [deepGetAux, hlk]⟩
    | vstr s' => exact Or.inr ⟨_, rfl⟩
    | vint i => exact Or.inr ⟨_, rfl⟩
    | vbool b => exact Or.inr ⟨_, rfl⟩
    | vfloat f => exact Or.inr ⟨_, rfl⟩
    | vlist l => exact Or.inr ⟨_, rfl⟩

/-! ## Claims about `_deep_get` -/

/-- C1 — PathResolver success: for every mapping `M` and dotted path `P` whose
segments each occur as a key at the successive nesting level (each
intermediate value being a mapping, captured by `Resolves`), `_deep_get(M, P)`
returns exactly the nested value found after consuming the last segment —
scalar, list, or nested mapping alike.  `deep_get` is a pure Lean function of
`(M, P)`, so it cannot mutate `M` and repeated calls with the same arguments
are definitionally the same value. -/
theorem deep_get_resolves (M : Dict) (P : String) (out : Value)
    (h : Resolves (Value.vdict M) (splitDot P) out) :
    deep_get M P = Except.ok out :=
  deepGetAux_of_resolves h []

/-- Witness for C1 on `{"a": {"b": 42}}` and path `"a.b"`. -/
theorem deep_get_resolves_witness :
    deep_get exM "a.b" = Except.ok (Value.vint 42) :=
  deep_get_resolves exM "a.b" (Value.vint 42)
    (Resolves.cons rfl (Resolves.cons rfl (Resolves.nil (Value.vint 42))))

/-- C2 — PathResolver failure: if resolution of `P` against `M` diverges at
segment position `k` (the current value is not a mapping, or segment `k` is
not one of its keys), `_deep_get(M, P)` raises a `KeyError` whose embedded
path is exactly the dot-join of segments `0..k` inclusive.  (The full error
message is `keyErrorMessage` applied to that prefix.) -/
theorem deep_get_diverges (M : Dict) (P : String) (k : Nat)
    (h : DivergesAt (Value.vdict M) (splitDot P) k) :
    deep_get M P =
      Except.error (HSError.keyError (joinDot ((splitDot P).take (k + 1)))) := by
  have h2 := deepGetAux_of_diverges h []
  simpa [deep_get] using h2

/-- Witness for C2 on `{"a": {"b": 42}}` and path `"a.x"`, diverging at
position 1 with embedded prefix `"a.x"`. -/
theorem deep_get_diverges_witness :
    deep_get exM "a.x" = Except.error (HSError.keyError "a.x") :=
  deep_get_diverges exM "a.x" 1
    (DivergesAt.step rfl (DivergesAt.missing rfl))

/-- C10 — implicit resolver safety: `_deep_get` either returns a value or
raises `KeyError` — never any other exception; and whenever the current value
is a non-mapping (scalar or list) with segments remaining, the very next
segment fails with the `KeyError` carrying the dotted prefix (so list
elements and scalar interiors are never addressable by any path). -/
theorem deep_get_exception_safety :
    (∀ (d : Dict) (p : String),
      (∃ v, deep_get d p = Except.ok v) ∨
      (∃ pre, deep_get d p = Except.error (HSError.keyError pre)))
    ∧ (∀ (v : Value) (consumed : List String) (s : String) (rest : List String),
        v.isDict = false →
        deepGetAux v consumed (s :: rest) =
          Except.error (HSError.keyError (joinDot (consumed ++ [s])))) := by
  constructor
  · intro d p
    exact deepGetAux_total (splitDot p) (Value.vdict d) []
  · intro v consumed s rest hv
    cases v <;> simp_all [deepGetAux, Value.isDict]

/-- Witness for C10: a scalar interior (`7`) makes the next segment fail with
the dotted prefix `"a.b"`. -/
theorem deep_get_exception_safety_witness :
    deepGetAux (Value.vint 7) ["a"] ("b" :: []) =
      Except.error (HSError.keyError "a.b") :=
  deep_get_exception_safety.2 (Value.vint 7) ["a"] "b" [] rfl

/-! ## Lemmas about `walk` -/

/-- For a non-dict value, `walk`'s item step reduces to its filtering chain:
skip `description` keys, skip the sentinel, otherwise yield. -/
theorem walkVal_eq_of_nondict (key path : String) (v : Value) (hv : v.isDict = false) :
    walkVal key path v =
      if key = DESCRIPTION then [] else if isUnknown v then [] else [(path, v)] := by
  cases v <;> simp_all [walkVal, Value.isDict]

/-- Shape of an entry contributed by a non-dict item: it is yielded at the
item's own path, its key is not `description`, and its value is neither a
dict nor the sentinel. -/
theorem walkVal_nondict_shape (key pp : String) (v : Value) (hv : v.isDict = false)
    (p : String) (w : Value) (hmem : (p, w) ∈ walkVal key (childPath pp key) v) :
    ∃ q k, p = childPath q k ∧ k ≠ DESCRIPTION ∧ w.isDict = false ∧ isUnknown w = false := by
  rw [walkVal_eq_of_nondict key _ v hv] at hmem
  by_cases hk : key = DESCRIPTION
  · simp [hk] at hmem
  · by_cases hu : isUnknown v = true
    · simp [hk, hu] at hmem
    · simp [hk, hu] at hmem
      obtain ⟨hp, hw⟩ := hmem
      subst hp
      subst hw
      exact ⟨pp, key, rfl, hk, hv, by simpa using hu⟩

mutual
/-- Every entry contributed by one item of `walk` sits at a `childPath` whose
final key is not `description`, and its value is neither a dict nor the
sentinel. -/
theorem walkVal_entry_shape (key pp : String) (v : Value) :
    ∀ p w, (p, w) ∈ walkVal key (childPath pp key) v →
      ∃ q k, p = childPath q k ∧ k ≠ DESCRIPTION ∧ w.isDict = false ∧ isUnknown w = false := by
  intro p w hmem
  cases v with
  | vdict d => exact walkDict_entry_shape d (childPath pp key) p w hmem
  | vstr s => exact walkVal_nondict_shape key pp (Value.vstr s) rfl p w hmem
  | vint i => exact walkVal_nondict_shape key pp (Value.vint i) rfl p w hmem
  | vbool b => exact walkVal_nondict_shape key pp (Value.vbool b) rfl p w hmem
  | vfloat f => exact walkVal_nondict_shape key pp (Value.vfloat f) rfl p w hmem
  | vlist l => exact walkVal_nondict_shape key pp (Value.vlist l) rfl p w hmem
/-- Every entry yielded by `walk` sits at a `childPath` whose final key is not
`description`, and its value is neither a dict nor the sentinel. -/
theorem walkDict_entry_shape (d : Dict) (pp : String) :
    ∀ p w, (p, w) ∈ walkDict d pp →
      ∃ q k, p = childPath q k ∧ k ≠ DESCRIPTION ∧ w.isDict = false ∧ isUnknown w = false := by
  intro p w hmem
  cases d with
  | dnil => simp [walkDict] at hmem
  | dcons key value rest =>
    simp only [walkDict] at hmem
    rcases List.mem_append.mp hmem with h1 | h2
    · exact walkVal_entry_shape key pp value p w h1
    · exact walkDict_entry_shape rest pp p w h2
end

/-! ## Claims about `walk` -/

/-- C3 counterexample: the claim says a `description` key is never descended
into even when its value is a mapping, so `walk` on
`{"description": {"a": "1"}}` would have to yield nothing; but the source
tests `isinstance(value, dict)` before the `description` check, so it descends
and yields `("description.a", "1")`. -/
theorem walk_descends_into_description_dict :
    walk (Dict.dcons DESCRIPTION
        (Value.vdict (Dict.dcons "a" (Value.vstr "1") Dict.dnil)) Dict.dnil) =
      [("description.a", Value.vstr "1")] := rfl

/-- C3 (amended): a key equal to `description` whose value is NOT a mapping is
skipped by `walk` — not yielded; a `description` key whose value IS a mapping
is descended into like any other key (so yielded paths can pass through a
`description` segment, but no yielded entry ever sits at a `description` key
itself: every yielded path is a `childPath` whose final key differs from
`description`). -/
theorem walk_description_amended :
    (∀ (v : Value) (rest : Dict) (pp : String), v.isDict = false →
        walkDict (Dict.dcons DESCRIPTION v rest) pp = walkDict rest pp)
    ∧ (∀ (d rest : Dict) (pp : String),
        walkDict (Dict.dcons DESCRIPTION (Value.vdict d) rest) pp =
          walkDict d (childPath pp DESCRIPTION) ++ walkDict rest pp)
    ∧ (∀ (dct : Dict) (p : String) (w : Value), (p, w) ∈ walk dct →
        ∃ q k, p = childPath q k ∧ k ≠ DESCRIPTION) := by
  refine ⟨?_, ?_, ?_⟩
  · intro v rest pp hv
    simp [walkDict, walkVal_eq_of_nondict DESCRIPTION _ v hv]
  · intro d rest pp
    simp [walkDict, walkVal]
  · intro dct p w hmem
    obtain ⟨q, k, hp, hk, _, _⟩ := walkDict_entry_shape dct "" p w hmem
    exact ⟨q, k, hp, hk⟩

/-- Witness for the amended C3: a string-valued `description` item contributes
nothing, and the entry yielded by `walk {"a": 1}` sits at a non-`description`
key. -/
theorem walk_description_amended_witness :
    (walkDict (Dict.dcons DESCRIPTION (Value.vstr "meta") Dict.dnil) "" =
      walkDict Dict.dnil "")
    ∧ (∃ q k, "a" = childPath q k ∧ k ≠ DESCRIPTION) :=
  ⟨walk_description_amended.1 (Value.vstr "meta") Dict.dnil "" rfl,
   walk_description_amended.2.2 (Dict.dcons "a" (Value.vint 1) Dict.dnil) "a"
     (Value.vint 1) (List.Mem.head _)⟩

/-- C7 — sentinel rule and example: `walk` never yields an entry whose value
is the placeholder sentinel `"..."` (while traversal of sibling keys
continues), and on the spec's example mapping it yields exactly
`("github.accounts.personal.account_id", "user123")` — the sibling
`admin_email` (sentinel) and the `description` entry are both excluded. -/
theorem walk_sentinel_and_example :
    (∀ (dct : Dict) (p : String) (w : Value), (p, w) ∈ walk dct →
        w ≠ Value.vstr UNKNOWN)
    ∧ walk exGithub = [("github.accounts.personal.account_id", Value.vstr "user123")] := by
  constructor
  · intro dct p w hmem heq
    obtain ⟨_, _, _, _, _, hunk⟩ := walkDict_entry_shape dct "" p w hmem
    rw [heq] at hunk
    simp [isUnknown] at hunk
  · rfl

/-- Witness for C7: the entry yielded on the example mapping is not the
sentinel. -/
theorem walk_sentinel_and_example_witness :
    Value.vstr "user123" ≠ Value.vstr UNKNOWN :=
  walk_sentinel_and_example.1 exGithub "github.accounts.personal.account_id"
    (Value.vstr "user123") (List.Mem.head _)

/-! ## Claims about `Token` -/

/-- C5 — Token semantics: `Token(d, p)` is a plain dataclass, so construction
is total; every read of `.v` invokes `_deep_get` afresh on `(d, p)` with no
internal caching, returning exactly what `_deep_get(d, p)` returns (value or
`KeyError` alike, propagated verbatim).  As a pure function of the token, a
read leaves the token unchanged and re-reads give definitionally identical
results. -/
theorem token_v_fresh_resolution :
    (∀ (d : Dict) (p : String), (Token.mk d p).v = deep_get d p)
    ∧ (∀ t : Token, t.v = deep_get t.data t.path) :=
  ⟨fun _ _ => rfl, fun _ => rfl⟩

/-! ## Lemmas about the store -/

/-- Appending a fresh cache entry makes its key hit. -/
theorem lookupAssoc_append_self {α : Type} (l : List (String × α)) (key : String) (x : α)
    (h : lookupAssoc l key = none) :
    lookupAssoc (l ++ [(key, x)]) key = some x := by
  induction l with
  | nil => simp [lookupAssoc]
  | cons kv rest ih =>
    obtain ⟨k, v⟩ := kv
    by_cases hk : k = key
    · simp [lookupAssoc, hk] at h
    · simp only [lookupAssoc, hk, List.cons_append, if_neg hk] at h ⊢
      exact ih h

/-- A hit in an extended cache is either an old hit or the new entry. -/
theorem lookupAssoc_append_elim {α : Type} (l : List (String × α)) (key p : String)
    (x y : α) (h : lookupAssoc (l ++ [(key, x)]) p = some y) :
    lookupAssoc l p = some y ∨ (p = key ∧ y = x) := by
  induction l with
  | nil =>
    simp [lookupAssoc] at h
    by_cases hk : key = p
    · simp [hk] at h
      exact Or.inr ⟨hk.symm, h.symm⟩
    · simp [hk] at h
  | cons kv rest ih =>
    obtain ⟨k, v⟩ := kv
    by_cases hk : k = p
    · simp only [List.cons_append, lookupAssoc, if_pos hk] at h ⊢
      exact Or.inl h
    · simp only [List.cons_append, lookupAssoc, if_neg hk] at h ⊢
      exact ih h

/-- A fresh store satisfies the store invariant. -/
theorem storeWF_init (cfg : StoreConfig) : StoreWF cfg initState := by
  refine ⟨?_, ?_, ?_⟩
  · intro d h
    simp [initState] at h
  · intro p v h
    simp [initState, lookupAssoc] at h
  · intro p tk h
    simp [initState, lookupAssoc] at h

/-- A successful `data` access yields the parsed file content, memoizes it,
and touches neither cache. -/
theorem loadData_ok (cfg : StoreConfig) (st st1 : StoreState) (d : Dict)
    (hwf : StoreWF cfg st) (h : loadData cfg st = (st1, Except.ok d)) :
    d = cfg.content ∧ st1.dataCache = some cfg.content ∧
      st1.cacheV = st.cacheV ∧ st1.cacheT = st.cacheT := by
  unfold loadData at h
  cases hdc : st.dataCache with
  | some d0 =>
    rw [hdc] at h
    simp only [Prod.mk.injEq, Except.ok.injEq] at h
    obtain ⟨hst, hd⟩ := h
    obtain ⟨hc, _⟩ := hwf.1 d0 hdc
    subst hst
    subst hd
    exact ⟨hc, by rw [hdc, hc], rfl, rfl⟩
  | none =>
    rw [hdc] at h
    by_cases hfe : cfg.fileExists
    · simp only [hfe, if_true, Prod.mk.injEq, Except.ok.injEq] at h
      obtain ⟨hst, hd⟩ := h
      subst hst
      exact ⟨hd.symm, rfl, rfl, rfl⟩
    · simp [hfe] at h

/-- When the mapping is already memoized, `data` access returns it without
touching the state. -/
theorem loadData_of_loaded (cfg : StoreConfig) (st : StoreState)
    (hload : st.dataCache = some cfg.content) :
    loadData cfg st = (st, Except.ok cfg.content) := by
  simp [loadData, hload]

/-- When the mapping is loaded, `t(path)` returns the token bound to the
store's mapping and `path`, for every path string. -/
theorem storeT_ok_of_loaded (cfg : StoreConfig) (st : StoreState) (path : String)
    (hwf : StoreWF cfg st) (hload : st.dataCache = some cfg.content) :
    ∃ st2, storeT cfg st path = (st2, Except.ok (Token.mk cfg.content path)) := by
  cases hct : lookupAssoc st.cacheT path with
  | some tk =>
    have htk := hwf.2.2 path tk hct
    subst htk
    exact ⟨st, by simp [storeT, hct]⟩
  | none =>
    refine ⟨{ st with cacheT := st.cacheT ++ [(path, Token.mk cfg.content path)] }, ?_⟩
    simp [storeT, hct, loadData_of_loaded cfg st hload]

/-! ## Claims about the store -/

/-- C4 counterexample: the claim says `t(path)` succeeds for EVERY store
instance and path, with even a missing backing resource surfacing only at
read time; but `t` accesses `self.data` eagerly to construct the token, so on
a store whose backing file does not exist, `t("a")` itself raises
`FileNotFoundError`. -/
theorem storeT_fails_on_missing_file :
    storeT (StoreConfig.mk false Dict.dnil) initState "a" =
      (initState, Except.error HSError.fileNotFound) := rfl

/-- C4 (amended): provided the store's backing file exists, `t(path)` succeeds
for every path string — including paths that do not resolve — creating and
caching the token bound to the store's mapping and the path; path-resolution
failures surface only when the returned token is later read via `.v`.  (When
the backing file is missing, `t` itself fails with `FileNotFoundError`.) -/
theorem storeT_total_when_file_exists (cfg : StoreConfig) (st : StoreState) (path : String)
    (hwf : StoreWF cfg st) (hfe : cfg.fileExists = true) :
    ∃ st1, storeT cfg st path = (st1, Except.ok (Token.mk cfg.content path)) ∧
      lookupAssoc st1.cacheT path = some (Token.mk cfg.content path) ∧
      (Token.mk cfg.content path).v = deep_get cfg.content path := by
  cases hct : lookupAssoc st.cacheT path with
  | some tk =>
    have htk := hwf.2.2 path tk hct
    subst htk
    exact ⟨st, by simp [storeT, hct], hct, rfl⟩
  | none =>
    cases hld : loadData cfg st with
    | mk st1 res =>
      cases res with
      | error e =>
        exfalso
        unfold loadData at hld
        cases hdc : st.dataCache with
        | some d => rw [hdc] at hld; simp at hld
        | none => rw [hdc] at hld; simp [hfe] at hld
      | ok d =>
        obtain ⟨hd, hdc1, hcv1, hct1⟩ := loadData_ok cfg st st1 d hwf hld
        subst hd
        refine ⟨{ st1 with cacheT := st1.cacheT ++ [(path, Token.mk cfg.content path)] },
          ?_, ?_, rfl⟩
        · simp [storeT, hct, hld]
        · exact lookupAssoc_append_self _ _ _ (by rw [hct1]; exact hct)

/-- Witness for the amended C4: on a fresh store with an existing file,
`t("no.such.path")` succeeds and caches the token even though the path does
not resolve. -/
theorem storeT_total_when_file_exists_witness :
    ∃ st1, storeT (StoreConfig.mk true exM) initState "no.such.path" =
      (st1, Except.ok (Token.mk exM "no.such.path")) ∧
      lookupAssoc st1.cacheT "no.such.path" = some (Token.mk exM "no.such.path") ∧
      (Token.mk exM "no.such.path").v = deep_get exM "no.such.path" :=
  storeT_total_when_file_exists (StoreConfig.mk true exM) initState "no.such.path"
    (storeWF_init _) rfl

/-- C6 — immediate and deferred lookup agree, and immediate lookup memoizes:
on a store whose mapping is loaded, for every path that resolves successfully,
`v(path)` returns the same value that `t(path).v` resolves to; and calling `v`
again with the same path string on the resulting store returns the cached
value with the state unchanged — in particular `resolveCount` does not grow,
i.e. the resolver is not invoked again. -/
theorem storeV_storeT_agree_memoize (cfg : StoreConfig) (st : StoreState)
    (path : String) (val : Value)
    (hwf : StoreWF cfg st) (hload : st.dataCache = some cfg.content)
    (hres : deep_get cfg.content path = Except.ok val) :
    ∃ st1, storeV cfg st path = (st1, Except.ok val) ∧
      storeV cfg st1 path = (st1, Except.ok val) ∧
      ∃ st2 tk, storeT cfg st path = (st2, Except.ok tk) ∧ tk.v = Except.ok val := by
  have hldS := loadData_of_loaded cfg st hload
  cases hcv : lookupAssoc st.cacheV path with
  | some v =>
    have hv := hwf.2.1 path v hcv
    have hveq : v = val := Except.ok.inj (hv.symm.trans hres)
    subst hveq
    refine ⟨st, by simp [storeV, hcv], by simp [storeV, hcv], ?_⟩
    obtain ⟨st2, hT⟩ := storeT_ok_of_loaded cfg st path hwf hload
    exact ⟨st2, Token.mk cfg.content path, hT, hres⟩
  | none =>
    have happ : lookupAssoc (st.cacheV ++ [(path, val)]) path = some val :=
      lookupAssoc_append_self st.cacheV path val hcv
    refine ⟨{ st with
        resolveCount := st.resolveCount + 1
        cacheV := st.cacheV ++ [(path, val)] }, ?_, ?_, ?_⟩
    · simp [storeV, hcv, hldS, hres]
    · simp [storeV, happ]
    · obtain ⟨st2, hT⟩ := storeT_ok_of_loaded cfg st path hwf hload
      exact ⟨st2, Token.mk cfg.content path, hT, hres⟩

/-- A store that has loaded `{"a": {"b": 42}}` and cached nothing yet. -/
def loadedState : StoreState :=
  { dataCache := some exM, cacheV := [], cacheT := [], readCount := 1, resolveCount := 0 }

/-- The loaded fixture store satisfies the store invariant. -/
theorem storeWF_loaded : StoreWF (StoreConfig.mk true exM) loadedState := by
  refine ⟨?_, ?_, ?_⟩
  · intro d h
    simp only [loadedState, Option.some.injEq] at h
    simp [h]
  · intro p v h
    simp [loadedState, lookupAssoc] at h
  · intro p tk h
    simp [loadedState, lookupAssoc] at h

/-- Witness for C6 on the loaded fixture store and path `"a.b"`. -/
theorem storeV_storeT_agree_memoize_witness :
    ∃ st1, storeV (StoreConfig.mk true exM) loadedState "a.b" =
        (st1, Except.ok (Value.vint 42)) ∧
      storeV (StoreConfig.mk true exM) st1 "a.b" = (st1, Except.ok (Value.vint 42)) ∧
      ∃ st2 tk, storeT (StoreConfig.mk true exM) loadedState "a.b" =
          (st2, Except.ok tk) ∧ tk.v = Except.ok (Value.vint 42) :=
  storeV_storeT_agree_memoize (StoreConfig.mk true exM) loadedState "a.b" (Value.vint 42)
    storeWF_loaded rfl rfl

/-- C8 — eager FileMissing and load memoization: on a store whose backing file
does not exist, the first `data` access fails with `FileNotFoundError`
regardless of what content the file would have parsed to (the failure precedes
any parse attempt) and changes nothing; when the file exists, the first access
reads and parses it exactly once (`readCount` grows by one), memoizes the
mapping, and every subsequent access returns the same memoized mapping with
the state — in particular `readCount` — unchanged. -/
theorem data_eager_filemissing_memoized :
    (∀ (content : Dict) (st : StoreState), st.dataCache = none →
        loadData (StoreConfig.mk false content) st =
          (st, Except.error HSError.fileNotFound))
    ∧ (∀ (cfg : StoreConfig) (st : StoreState), cfg.fileExists = true →
        st.dataCache = none →
        ∃ st1, loadData cfg st = (st1, Except.ok cfg.content) ∧
          st1.readCount = st.readCount + 1 ∧ st1.dataCache = some cfg.content ∧
          loadData cfg st1 = (st1, Except.ok cfg.content)) := by
  constructor
  · intro content st h
    simp [loadData, h]
  · intro cfg st hfe h
    refine ⟨{ st with dataCache := some cfg.content, readCount := st.readCount + 1 },
      ?_, rfl, rfl, ?_⟩
    · simp [loadData, h, hfe]
    · simp [loadData]

/-- Witness for C8 on a fresh store, with and without the backing file. -/
theorem data_eager_filemissing_memoized_witness :
    (loadData (StoreConfig.mk false exM) initState =
      (initState, Except.error HSError.fileNotFound))
    ∧ ∃ st1, loadData (StoreConfig.mk true exM) initState = (st1, Except.ok exM) ∧
        st1.readCount = initState.readCount + 1 ∧ st1.dataCache = some exM ∧
        loadData (StoreConfig.mk true exM) st1 = (st1, Except.ok exM) :=
  ⟨data_eager_filemissing_memoized.1 exM initState rfl,
   data_eager_filemissing_memoized.2 (StoreConfig.mk true exM) initState rfl rfl⟩

/-! ## Claims about facet matching (modelled from the spec) -/

/-- C9 — FacetMatcher AND-matching (modelled from the spec, the defining code
being absent from src/): `matchesAll(path, facets)` is true iff every facet
occurs as a substring of the normalized path (lowercased, dashes replaced by
underscores), and the empty facet list matches every path vacuously. -/
theorem matches_all_facets_spec :
    (∀ path : String, matches_all_facets path [] = true)
    ∧ (∀ (path : String) (facets : List String),
        matches_all_facets path facets = true ↔
          ∀ f ∈ facets, List.IsInfix f.toList (normalize_for_match path).toList) := by
  constructor
  · intro path
    rfl
  · intro path facets
    simp [matches_all_facets, substrB, List.all_eq_true]

/-- Witness for C9: both facets of a two-facet query match a mixed-case,
dashed path. -/
theorem matches_all_facets_spec_witness :
    matches_all_facets "GitHub.Accounts.My-Personal" ["github", "my_personal"] = true :=
  (matches_all_facets_spec.2 "GitHub.Accounts.My-Personal"
    ["github", "my_personal"]).mpr (by decide)
